import Mathlib

/-!
Verification development for the voice-recording repository.

The repository's core logic is the `useAudioRecorder` hook in
`apps/audio-recorder/src/components/audio-recorder/index.tsx` (the variant
with pause/resume and a `recordingTime` timer), a simpler variant in
`apps/web/app/voice/_components/audio-recorder/index.tsx`, and the
frequency-bar bucketing function `calculateBarData` in
`apps/audio/src/App.tsx` (two textually identical copies).

The hooks are shallowly embedded as explicit state machines: the React
state variables and refs become fields of a state record, and each
handler or callback of the hook becomes one event of a `step` function.
Chunks (browser `Blob` fragments) are byte lists; `Blob` construction over
a chunk list concatenates the bytes (`List.flatten`).  Timer values are
rationals (the interval handler adds 0.1 per tick).  A `console.error`
call is modelled as a counter, and invocations of the caller-supplied
`onRecordingComplete` callback are recorded in a `completed` list.
-/

namespace Voice

/-- A chunk: one immutable byte fragment delivered by `ondataavailable`
(the bytes of the browser `Blob`; `event.data.size` is its length). -/
abbrev Chunk := List ℕ

/-- The assembled output of `new Blob(chunks, { type })`: the concatenated
bytes plus the media-type tag. -/
structure Artifact where
  bytes : List ℕ
  mediaType : String
deriving DecidableEq

/-- The `MediaRecorder.state` string: `"inactive"`, `"recording"`, or
`"paused"`. -/
inductive MRState
  | inactive
  | recording
  | paused
deriving DecidableEq

/-- The state of the `useAudioRecorder` hook in
`apps/audio-recorder/src/components/audio-recorder/index.tsx`:
`isRecording`, `isPaused`, `recordingTime` are the React state variables;
`chunks` is `chunksRef.current`; `mr` is `mediaRecorderRef.current`
(`none` when null, otherwise its `state`); `streamHeld` is whether
`streamRef.current` is non-null; `deviceLive` is whether the acquired
stream's tracks are still live (not yet `track.stop()`ed); `timerOn` is
whether `intervalRef.current` is non-null; `audioUrl` stands for the
object URL (we keep the blob it points to); `completed` records each
invocation of the caller-supplied `onRecordingComplete` callback;
`consoleErrors` counts `console.error` calls. -/
structure RecState where
  isRecording : Bool
  isPaused : Bool
  recordingTime : ℚ
  chunks : List Chunk
  mr : Option MRState
  streamHeld : Bool
  deviceLive : Bool
  timerOn : Bool
  audioUrl : Option Artifact
  completed : List Artifact
  consoleErrors : ℕ
deriving DecidableEq

/-- The initial hook state: all `useState` initialisers and null refs. -/
def initState : RecState :=
  { isRecording := false
    isPaused := false
    recordingTime := 0
    chunks := []
    mr := none
    streamHeld := false
    deviceLive := false
    timerOn := false
    audioUrl := none
    completed := []
    consoleErrors := 0 }

/-- Events driving the hook: each corresponds to one handler or callback
in the source.  `startOk` is `startRecording` with `getUserMedia`
succeeding; `startFail` is `startRecording` with `getUserMedia` throwing;
`dataAvailable c` is the `ondataavailable` handler receiving fragment `c`;
`pauseEvt`/`resumeEvt`/`stopEvt` are `pauseRecording`/`resumeRecording`/
`stopRecording`; `onstopEvt` is the browser firing the recorder's `stop`
event (the `onstop` handler); `tick` is one firing of the 100 ms
interval installed by `startTimer`. -/
inductive Event
  | startOk
  | startFail
  | dataAvailable (c : Chunk)
  | pauseEvt
  | resumeEvt
  | stopEvt
  | onstopEvt
  | tick
deriving DecidableEq

/-- The stream-cleanup block that appears in both `stopRecording` and the
`onstop` handler:
`if (streamRef.current) { streamRef.current.getTracks().forEach(t => t.stop()); streamRef.current = null; }`. -/
def releaseStream (s : RecState) : RecState :=
  if s.streamHeld then { s with deviceLive := false, streamHeld := false } else s

/-- One step of the hook.  Each branch is a direct transcription of the
corresponding handler in
`apps/audio-recorder/src/components/audio-recorder/index.tsx`:

* `startOk`: acquire the stream, create a fresh `MediaRecorder` (then
  `.start()`, so its state is `recording`), clear `chunksRef`, set
  `isRecording`/`isPaused`, reset `recordingTime` to 0, start the timer.
* `startFail`: the `catch` block only calls `console.error`.
* `dataAvailable c`: `if (event.data.size > 0) chunksRef.current.push(event.data)`.
* `pauseEvt`: guarded by `mediaRecorderRef.current?.state === "recording"`;
  pauses the recorder, sets `isPaused`, stops the timer.
* `resumeEvt`: guarded by `state === "paused"`; resumes, clears `isPaused`,
  restarts the timer.
* `stopEvt`: guarded by `mediaRecorderRef.current && isRecording`; calls
  `mediaRecorder.stop()` (state becomes `inactive`), releases the stream,
  clears `isRecording`/`isPaused`, stops the timer, and resets
  `recordingTime` to 0.
* `onstopEvt`: builds `new Blob(chunksRef.current, { type: "audio/mp4" })`,
  stores its object URL, invokes `onRecordingComplete` with it, and runs
  the stream-cleanup block.  (The async `checkAudioDuration` call only
  feeds the `audioDuration` display and is not modelled.)
* `tick`: the interval adds 0.1 to `recordingTime`; it fires only while
  the interval is installed. -/
def step (s : RecState) : Event → RecState
  | .startOk =>
      { s with streamHeld := true
               deviceLive := true
               mr := some .recording
               chunks := []
               isRecording := true
               isPaused := false
               recordingTime := 0
               timerOn := true }
  | .startFail => { s with consoleErrors := s.consoleErrors + 1 }
  | .dataAvailable c =>
      if 0 < c.length then { s with chunks := s.chunks ++ [c] } else s
  | .pauseEvt =>
      if s.mr = some .recording then
        { s with mr := some .paused, isPaused := true, timerOn := false }
      else s
  | .resumeEvt =>
      if s.mr = some .paused then
        { s with mr := some .recording, isPaused := false, timerOn := true }
      else s
  | .stopEvt =>
      if s.mr.isSome && s.isRecording then
        releaseStream
          { s with mr := some .inactive
                   isRecording := false
                   isPaused := false
                   timerOn := false
                   recordingTime := 0 }
      else s
  | .onstopEvt =>
      releaseStream
        { s with audioUrl := some ⟨s.chunks.flatten, "audio/mp4"⟩
                 completed := s.completed ++ [⟨s.chunks.flatten, "audio/mp4"⟩] }
  | .tick =>
      if s.timerOn then { s with recordingTime := s.recordingTime + 1/10 } else s

/-- Run the hook over a sequence of events. -/
def run (s : RecState) (es : List Event) : RecState := es.foldl step s

/-- `getBlob` of the pause/timer variant:
`if (chunksRef.current.length === 0) return null; return new Blob(chunksRef.current, { type: "audio/mp4" })`.
The source only reads `chunksRef`, so it is a pure reader of the state. -/
def getBlob (s : RecState) : Option Artifact :=
  if s.chunks.length = 0 then none else some ⟨s.chunks.flatten, "audio/mp4"⟩

/-- State invariant of the hook, relating the React flags, the installed
interval, and the `MediaRecorder` state.  It holds initially and is
preserved by every event (`inv_init`, `inv_step`). -/
def Inv (s : RecState) : Prop :=
  s.timerOn = (s.isRecording && !s.isPaused)
  ∧ (s.mr = some .recording → s.isRecording = true ∧ s.isPaused = false)
  ∧ (s.mr = some .paused → s.isRecording = true ∧ s.isPaused = true)
  ∧ (s.mr = some .inactive → s.isRecording = false)
  ∧ (s.mr = none → s.isRecording = false ∧ s.isPaused = false)

instance : DecidablePred Inv := fun s => by unfold Inv; infer_instance

/-- The state of the simpler `useAudioRecorder` hook in
`apps/web/app/voice/_components/audio-recorder/index.tsx`.  That variant
has no pause/resume, no timer, and no `streamRef` (its `stopRecording`
stops the tracks of `mediaRecorderRef.current.stream` directly).
`mrSet` is whether `mediaRecorderRef.current` is non-null; `completed`
records invocations of the `onRecordingComplete` prop — the component
destructures that prop but never calls it, so no transition appends to
this list. -/
structure WebState where
  isRecording : Bool
  chunks : List Chunk
  mrSet : Bool
  deviceLive : Bool
  audioUrl : Option Artifact
  completed : List Artifact
  consoleErrors : ℕ
deriving DecidableEq

/-- Initial state of the web-variant hook. -/
def webInit : WebState :=
  { isRecording := false
    chunks := []
    mrSet := false
    deviceLive := false
    audioUrl := none
    completed := []
    consoleErrors := 0 }

/-- One step of the web-variant hook, transcribed from
`apps/web/app/voice/_components/audio-recorder/index.tsx`:
`startOk` acquires a stream, creates the recorder, clears `chunksRef` and
starts; `startFail` only logs; `ondataavailable` keeps fragments with
`size > 0`; `stopRecording` (guard `mediaRecorderRef.current &&
isRecording`) stops the recorder and its stream's tracks; the `onstop`
handler builds `new Blob(chunksRef.current, { type: 'audio/webm' })` and
stores its object URL — it does NOT invoke `onRecordingComplete`.  The
variant has no pause/resume handlers and no timer, so `pauseEvt`,
`resumeEvt` and `tick` do not apply to it and leave the state unchanged. -/
def webStep (s : WebState) : Event → WebState
  | .startOk =>
      { s with mrSet := true, deviceLive := true, chunks := [], isRecording := true }
  | .startFail => { s with consoleErrors := s.consoleErrors + 1 }
  | .dataAvailable c =>
      if 0 < c.length then { s with chunks := s.chunks ++ [c] } else s
  | .stopEvt =>
      if s.mrSet && s.isRecording then
        { s with isRecording := false, deviceLive := false }
      else s
  | .onstopEvt => { s with audioUrl := some ⟨s.chunks.flatten, "audio/webm"⟩ }
  | _ => s

/-- Run the web-variant hook over a sequence of events. -/
def webRun (s : WebState) (es : List Event) : WebState := es.foldl webStep s

/-- `getBlob` of the web variant (`audio/webm` media type):
`if (chunksRef.current.length === 0) return null; return new Blob(chunksRef.current, { type: 'audio/webm' })`. -/
def webGetBlob (s : WebState) : Option Artifact :=
  if s.chunks.length = 0 then none else some ⟨s.chunks.flatten, "audio/webm"⟩

/-- The bar geometry of `calculateBarData` in `apps/audio/src/App.tsx`
(identical in both copies): `units = width / (barWidth + gap)`, clamped
to the data length when it exceeds it. -/
def barUnits (len : ℕ) (width barWidth gap : ℚ) : ℚ :=
  if (len : ℚ) < width / (barWidth + gap) then (len : ℚ)
  else width / (barWidth + gap)

/-- The bucket size of `calculateBarData`:
`step = Math.floor(frequencyData.length / units)`, set to 1 when
`units > frequencyData.length`. -/
def barStep (len : ℕ) (width barWidth gap : ℚ) : ℕ :=
  if (len : ℚ) < width / (barWidth + gap) then 1
  else (⌊(len : ℚ) / (width / (barWidth + gap))⌋).toNat

/-- `calculateBarData` from `apps/audio/src/App.tsx` (two textually
identical copies, lines 29–52 and 211–240), over exact rational
arithmetic.  The JS loop `for (i = 0; i < units; i++)` runs for the
natural numbers below `units`, i.e. `⌈units⌉` iterations for
non-negative `units`; the inner loop
`for (j = 0; j < step && i * step + j < length; j++) sum += data[i*step+j]`
sums the in-range part of the window of `step` entries starting at
`i * step`, and the entry pushed is `sum / step`. -/
def calculateBarData (frequencyData : List ℚ) (width barWidth gap : ℚ) : List ℚ :=
  let n := barStep frequencyData.length width barWidth gap
  (List.range ⌈barUnits frequencyData.length width barWidth gap⌉₊).map
    (fun i => ((frequencyData.drop (i * n)).take n).sum / (n : ℚ))


/-! ### Basic lemmas about the embedded machines -/

lemma inv_init : Inv initState := by decide

/-- `Inv` only looks at the `timerOn`, `isRecording`, `isPaused` and `mr`
fields, so it transfers between states agreeing on those fields. -/
lemma inv_congr (s t : RecState) (hT : t.timerOn = s.timerOn)
    (hR : t.isRecording = s.isRecording) (hP : t.isPaused = s.isPaused)
    (hM : t.mr = s.mr) (h : Inv s) : Inv t := by
  unfold Inv at h ⊢
  rw [hT, hR, hP, hM]
  exact h

lemma inv_step (s : RecState) (e : Event) (h : Inv s) : Inv (step s e) := by
  obtain ⟨h1, h2, h3, h4, h5⟩ := h
  cases e with
  | startOk =>
      exact ⟨rfl, fun _ => ⟨rfl, rfl⟩, by intro hx; simp [step] at hx,
        by intro hx; simp [step] at hx, by intro hx; simp [step] at hx⟩
  | startFail => exact inv_congr s _ rfl rfl rfl rfl ⟨h1, h2, h3, h4, h5⟩
  | dataAvailable c =>
      by_cases hc : 0 < c.length
      · rw [show step s (.dataAvailable c) = { s with chunks := s.chunks ++ [c] } by
          simp [step, hc]]
        exact inv_congr s _ rfl rfl rfl rfl ⟨h1, h2, h3, h4, h5⟩
      · rw [show step s (.dataAvailable c) = s by simp [step, hc]]
        exact ⟨h1, h2, h3, h4, h5⟩
  | pauseEvt =>
      by_cases hm : s.mr = some .recording
      · obtain ⟨hr, _⟩ := h2 hm
        rw [show step s .pauseEvt
              = { s with mr := some .paused, isPaused := true, timerOn := false } by
            simp [step, hm]]
        refine ⟨by simp, by intro hx; simp at hx, fun _ => ⟨hr, rfl⟩, by intro hx; simp at hx, by intro hx; simp at hx⟩
      · rw [show step s .pauseEvt = s by simp [step, hm]]
        exact ⟨h1, h2, h3, h4, h5⟩
  | resumeEvt =>
      by_cases hm : s.mr = some .paused
      · obtain ⟨hr, _⟩ := h3 hm
        rw [show step s .resumeEvt
              = { s with mr := some .recording, isPaused := false, timerOn := true } by
            simp [step, hm]]
        refine ⟨by simp [hr], fun _ => ⟨hr, rfl⟩, by intro hx; simp at hx, by intro hx; simp at hx, by intro hx; simp at hx⟩
      · rw [show step s .resumeEvt = s by simp [step, hm]]
        exact ⟨h1, h2, h3, h4, h5⟩
  | stopEvt =>
      by_cases hg : (s.mr.isSome && s.isRecording) = true
      · rw [show step s .stopEvt
              = releaseStream
                  { s with mr := some .inactive, isRecording := false,
                           isPaused := false, timerOn := false, recordingTime := 0 } by
            simp [step, hg]]
        unfold releaseStream
        split
        · exact ⟨rfl, by intro hx; simp at hx, by intro hx; simp at hx, fun _ => rfl, by intro hx; simp at hx⟩
        · exact ⟨rfl, by intro hx; simp at hx, by intro hx; simp at hx, fun _ => rfl, by intro hx; simp at hx⟩
      · rw [show step s .stopEvt = s by simp [step, hg]]
        exact ⟨h1, h2, h3, h4, h5⟩
  | onstopEvt =>
      show Inv (releaseStream _)
      unfold releaseStream
      split
      · exact inv_congr s _ rfl rfl rfl rfl ⟨h1, h2, h3, h4, h5⟩
      · exact inv_congr s _ rfl rfl rfl rfl ⟨h1, h2, h3, h4, h5⟩
  | tick =>
      by_cases ht : s.timerOn = true
      · rw [show step s .tick = { s with recordingTime := s.recordingTime + 1/10 } by
          simp [step, ht]]
        exact inv_congr s _ rfl rfl rfl rfl ⟨h1, h2, h3, h4, h5⟩
      · rw [show step s .tick = s by simp [step, ht]]
        exact ⟨h1, h2, h3, h4, h5⟩

lemma run_nil (s : RecState) : run s [] = s := rfl

lemma run_cons (s : RecState) (e : Event) (es : List Event) :
    run s (e :: es) = run (step s e) es := rfl

lemma run_append (s : RecState) (l₁ l₂ : List Event) :
    run s (l₁ ++ l₂) = run (run s l₁) l₂ := List.foldl_append ..

lemma inv_run (s : RecState) (es : List Event) (h : Inv s) : Inv (run s es) := by
  induction es generalizing s with
  | nil => exact h
  | cons e es ih => exact ih _ (inv_step s e h)

/-- Effect of a batch of `ondataavailable` deliveries: exactly the
fragments of positive size are appended, in arrival order, and no other
field changes. -/
lemma run_dataAvailable (s : RecState) (cs : List Chunk) :
    run s (cs.map Event.dataAvailable)
      = { s with chunks := s.chunks ++ cs.filter (fun c => decide (0 < c.length)) } := by
  induction cs generalizing s with
  | nil => simp [run]
  | cons c cs ih =>
      rw [List.map_cons, run_cons]
      by_cases hc : 0 < c.length
      · rw [show step s (.dataAvailable c) = { s with chunks := s.chunks ++ [c] } by
          simp [step, hc]]
        rw [ih]
        simp [List.filter_cons, hc]
      · rw [show step s (.dataAvailable c) = s by simp [step, hc]]
        rw [ih]
        simp [List.filter_cons, hc]

/-- Dropping the zero-length fragments does not change the concatenated
bytes: an empty fragment contributes no bytes. -/
lemma flatten_filter_pos (cs : List Chunk) :
    (cs.filter (fun c => decide (0 < c.length))).flatten = cs.flatten := by
  induction cs with
  | nil => rfl
  | cons c cs ih =>
      by_cases hc : 0 < c.length
      · simp [List.filter_cons, hc, ih]
      · have hnil : c = [] := List.length_eq_zero.mp (Nat.le_zero.mp (Nat.not_lt.mp hc))
        simp [List.filter_cons, hc, ih, hnil]

/-! ### Claim theorems -/

/-- C1 (code divergence at a concrete cycle): for the cycle
`start() → append([1]) → append([2]) → stop()` (with the browser firing the
final `stop` event), the pause/timer variant invokes the caller-supplied
completion callback exactly once, with the artifact whose bytes are
`[1] ++ [2]` in order; the web variant assembles exactly the same byte
sequence into its artifact (the blob behind `audioUrl`) but never invokes
the caller-supplied `onRecordingComplete` callback, although its caller
passes one — so the claim's "completion callback is invoked exactly once"
clause fails on the web variant. -/
theorem c1_completion_callback_divergence :
    (run initState
        [.startOk, .dataAvailable [1], .dataAvailable [2], .stopEvt, .onstopEvt]).completed
      = [⟨[1, 2], "audio/mp4"⟩]
    ∧ (webRun webInit
        [.startOk, .dataAvailable [1], .dataAvailable [2], .stopEvt, .onstopEvt]).audioUrl
      = some ⟨[1, 2], "audio/webm"⟩
    ∧ (webRun webInit
        [.startOk, .dataAvailable [1], .dataAvailable [2], .stopEvt, .onstopEvt]).completed
      = [] := by
  refine ⟨?_, by decide, by decide⟩
  decide

/-- C2 counterexample: calling `stop()` immediately after `start()` with
zero chunks does NOT yield an empty-recording failure with no artifact:
the `onstop` handler unconditionally builds `new Blob([])` and invokes the
completion callback with it, so the callback IS invoked with an (empty)
artifact. -/
theorem c2_empty_stop_produces_artifact :
    (run initState [.startOk, .stopEvt, .onstopEvt]).completed
      = [⟨[], "audio/mp4"⟩]
    ∧ (run initState [.startOk, .stopEvt, .onstopEvt]).completed ≠ [] := by
  refine ⟨by decide, by decide⟩

/-- C2 amended: if `stop()` is called when zero chunks have been collected
since `start()`, the session does not fail: an artifact with empty bytes
is still produced and the completion callback is invoked exactly once with
it (there is no `EmptyRecording` error anywhere in the code); `getBlob`,
separately, returns null in that situation. -/
theorem c2_amended_empty_stop (s : RecState) :
    (run s [.startOk, .stopEvt, .onstopEvt]).completed
      = s.completed ++ [⟨[], "audio/mp4"⟩]
    ∧ getBlob (run s [.startOk, .stopEvt, .onstopEvt]) = none := by
  constructor
  · simp [run, step, releaseStream]
  · simp [run, step, releaseStream, getBlob]

/-- C3 counterexample: `recordingTime` is NOT reset only by a fresh
`start()`: after `start()` and one timer tick it is 0.1, and calling
`stop()` resets it to 0 (`stopRecording` runs `setRecordingTime(0)`). -/
theorem c3_stop_resets_timer :
    (run initState [.startOk, .tick]).recordingTime = 1/10
    ∧ (run initState [.startOk, .tick, .stopEvt]).recordingTime = 0 := by
  constructor
  · simp [run, step, initState]
  · simp [run, step, initState, releaseStream]

/-- C3 amended: over states satisfying the machine invariant,
`recordingTime` advances (by 0.1 per tick) only while recording and not
paused; ticks never decrease it; it is frozen — not reset — by `pause()`
and `resume()` and untouched by chunk delivery, the `stop` event handler
and a failed `start()`; and it is reset to 0 both by a successful
`start()` and by an effective `stop()` call (the latter is the deviation
from the claim, exhibited by `c3_stop_resets_timer`). -/
theorem c3_amended_timer_behaviour (s : RecState) (h : Inv s) :
    ((s.isRecording = false ∨ s.isPaused = true) →
        (step s .tick).recordingTime = s.recordingTime)
    ∧ (s.isRecording = true → s.isPaused = false →
        (step s .tick).recordingTime = s.recordingTime + 1/10)
    ∧ s.recordingTime ≤ (step s .tick).recordingTime
    ∧ (step s .pauseEvt).recordingTime = s.recordingTime
    ∧ (step s .resumeEvt).recordingTime = s.recordingTime
    ∧ (∀ c, (step s (.dataAvailable c)).recordingTime = s.recordingTime)
    ∧ (step s .onstopEvt).recordingTime = s.recordingTime
    ∧ (step s .startFail).recordingTime = s.recordingTime
    ∧ (step s .startOk).recordingTime = 0
    ∧ ((s.mr.isSome && s.isRecording) = true →
        (step s .stopEvt).recordingTime = 0) := by
  obtain ⟨h1, -, -, -, -⟩ := h
  refine ⟨?_, ?_, ?_, ?_, ?_, ?_, ?_, rfl, rfl, ?_⟩
  · intro hcase
    have ht : s.timerOn = false := by
      rw [h1]
      rcases hcase with hr | hp
      · simp [hr]
      · simp [hp]
    simp [step, ht]
  · intro hr hp
    have ht : s.timerOn = true := by rw [h1, hr, hp]; rfl
    simp [step, ht]
  · by_cases ht : s.timerOn = true
    · rw [show (step s .tick).recordingTime = s.recordingTime + 1/10 by simp [step, ht]]
      linarith
    · rw [show step s .tick = s by simp [step, ht]]
  · by_cases hm : s.mr = some .recording <;> simp [step, hm]
  · by_cases hm : s.mr = some .paused <;> simp [step, hm]
  · intro c
    by_cases hc : 0 < c.length <;> simp [step, hc]
  · show (releaseStream _).recordingTime = s.recordingTime
    unfold releaseStream
    split <;> rfl
  · intro hg
    rw [show step s .stopEvt
          = releaseStream
              { s with mr := some .inactive, isRecording := false,
                       isPaused := false, timerOn := false, recordingTime := 0 } by
        simp [step, hg]]
    unfold releaseStream
    split <;> rfl

/-- Witness for `c3_amended_timer_behaviour` at the concrete state reached
by a successful `start()`: a tick there advances the timer by 0.1. -/
theorem c3_amended_timer_behaviour_witness :
    (step (step initState .startOk) .tick).recordingTime
      = (step initState .startOk).recordingTime + 1/10 :=
  ((c3_amended_timer_behaviour (step initState .startOk) (by decide)).2.1) rfl rfl

/-- C5 counterexample: when device acquisition fails, the code does NOT
invoke any caller-supplied error callback — the component has no such
prop; the `catch` block only calls `console.error`, and the single
caller-visible callback (`onRecordingComplete`) is not invoked: starting
from the idle state, the failure changes nothing but the console-error
count. -/
theorem c5_no_error_callback :
    step initState .startFail = { initState with consoleErrors := 1 }
    ∧ (step initState .startFail).completed = [] := by
  refine ⟨by decide, by decide⟩

/-- C5 amended: when device acquisition fails, the failure is only logged
via `console.error`; no caller-supplied error callback exists or is
invoked (`onRecordingComplete`, the only callback, is not called), every
state variable — including the Idle-state indicators `isRecording` and
the null `mediaRecorderRef` — is left unchanged, and no retry is
attempted (the one `getUserMedia` attempt is terminal). -/
theorem c5_amended_acquisition_failure (s : RecState) :
    step s .startFail = { s with consoleErrors := s.consoleErrors + 1 }
    ∧ (step s .startFail).completed = s.completed
    ∧ (step s .startFail).isRecording = s.isRecording
    ∧ (step s .startFail).mr = s.mr
    ∧ (step s .startFail).chunks = s.chunks :=
  ⟨rfl, rfl, rfl, rfl, rfl⟩

/-- C6: the chunk accumulator (`ondataavailable`) silently drops every
zero-length fragment (the state is completely unchanged, no error path
exists) and appends every positive-length fragment; over any batch of
deliveries the buffer gains exactly the positive-length fragments in
arrival order, and no other field changes. -/
theorem c6_accumulator_drops_empty_keeps_order
    (s : RecState) (cs : List Chunk) (c : Chunk) :
    run s (cs.map Event.dataAvailable)
      = { s with chunks := s.chunks ++ cs.filter (fun d => decide (0 < d.length)) }
    ∧ (c.length = 0 → step s (.dataAvailable c) = s)
    ∧ (0 < c.length →
        step s (.dataAvailable c) = { s with chunks := s.chunks ++ [c] }) := by
  refine ⟨run_dataAvailable s cs, ?_, ?_⟩
  · intro hc
    simp [step, hc]
  · intro hc
    simp [step, hc]

/-- Witness for `c6_accumulator_drops_empty_keeps_order`: the empty
fragment is dropped without any state change. -/
theorem c6_accumulator_witness :
    step initState (.dataAvailable []) = initState :=
  (c6_accumulator_drops_empty_keeps_order initState [] []).2.1 rfl

/-- C4 counterexample: not every illegal operation call is a no-op —
`startRecording` carries no state guard.  In a Recording state holding
one chunk, calling `start()` (an illegal transition from Recording per
the specified machine, whose table only allows `start()` from Idle or
Stopped) changes the state: the chunk buffer is cleared. -/
theorem c4_start_not_gated :
    step (run initState [.startOk, .dataAvailable [1]]) .startOk
      ≠ run initState [.startOk, .dataAvailable [1]]
    ∧ (run initState [.startOk, .dataAvailable [1]]).isRecording = true
    ∧ (run initState [.startOk, .dataAvailable [1]]).chunks = [[1]]
    ∧ (step (run initState [.startOk, .dataAvailable [1]]) .startOk).chunks
      = [] := by
  refine ⟨by decide, by decide, by decide, by decide⟩

/-- C4 amended: every illegal `pause()`, `resume()` or `stop()` call is a
complete no-op.  In the Idle state (`mediaRecorderRef` null) and in the
Stopped state (recorder present with state `inactive`), `pause()`,
`resume()` and `stop()` all leave the whole state — session flags, chunks
and elapsed time included — unchanged; `resume()` while recording and
`pause()` while paused are likewise no-ops.  All handlers are total
(straight-line guarded code), so no error is raised.  (`start()` is the
exception exhibited by `c4_start_not_gated`: it is unguarded and begins a
fresh session even while one is active.) -/
theorem c4_illegal_transitions_are_noops (s : RecState) (h : Inv s) :
    (s.mr = none →
        step s .pauseEvt = s ∧ step s .resumeEvt = s ∧ step s .stopEvt = s)
    ∧ (s.mr = some .inactive →
        step s .pauseEvt = s ∧ step s .resumeEvt = s ∧ step s .stopEvt = s)
    ∧ (s.mr = some .recording → step s .resumeEvt = s)
    ∧ (s.mr = some .paused → step s .pauseEvt = s) := by
  obtain ⟨-, -, -, h4, -⟩ := h
  refine ⟨?_, ?_, ?_, ?_⟩
  · intro hm
    refine ⟨by simp [step, hm], by simp [step, hm], ?_⟩
    simp [step, hm]
  · intro hm
    have hr : s.isRecording = false := h4 hm
    refine ⟨by simp [step, hm], by simp [step, hm], ?_⟩
    simp [step, hm, hr]
  · intro hm
    simp [step, hm]
  · intro hm
    simp [step, hm]

/-- Witness for `c4_illegal_transitions_are_noops` in the Idle state:
`pause()`, `resume()` and `stop()` right after mount change nothing. -/
theorem c4_illegal_transitions_witness :
    step initState .pauseEvt = initState
    ∧ step initState .resumeEvt = initState
    ∧ step initState .stopEvt = initState :=
  (c4_illegal_transitions_are_noops initState (by decide)).1 rfl

/-- C7: the stream-release block is idempotent — running it twice yields
the same state as running it once (the second run sees a null
`streamRef` and does nothing) — and an effective `stop()` from any
recording/paused state (`isRecording` still true) always clears
`streamRef`, stopping the held tracks when a stream is held. -/
theorem c7_release_idempotent_and_stop_releases (s : RecState) :
    releaseStream (releaseStream s) = releaseStream s
    ∧ (Inv s → s.isRecording = true →
        (step s .stopEvt).streamHeld = false
        ∧ (s.streamHeld = true → (step s .stopEvt).deviceLive = false)) := by
  constructor
  · unfold releaseStream
    by_cases hs : s.streamHeld = true
    · simp [hs]
    · simp [hs]
  · intro h hr
    obtain ⟨-, -, -, h4, h5⟩ := h
    have hm : s.mr.isSome = true := by
      cases hmr : s.mr with
      | none => exact absurd ((h5 hmr).1) (by simp [hr])
      | some st => rfl
    have hg : (s.mr.isSome && s.isRecording) = true := by rw [hm, hr]; rfl
    rw [show step s .stopEvt
          = releaseStream
              { s with mr := some .inactive, isRecording := false,
                       isPaused := false, timerOn := false, recordingTime := 0 } by
        simp [step, hg]]
    unfold releaseStream
    by_cases hs : s.streamHeld = true
    · simp [hs]
    · simp [hs]

/-- Witness for `c7_release_idempotent_and_stop_releases` at the state
reached by a successful `start()`: `stop()` there clears the stream and
stops its tracks. -/
theorem c7_release_witness :
    (step (step initState .startOk) .stopEvt).streamHeld = false
    ∧ (step (step initState .startOk) .stopEvt).deviceLive = false := by
  have h := (c7_release_idempotent_and_stop_releases (step initState .startOk)).2
      (by decide) rfl
  exact ⟨h.1, h.2 rfl⟩

lemma releaseStream_completed (s : RecState) :
    (releaseStream s).completed = s.completed := by
  unfold releaseStream
  split <;> rfl

lemma releaseStream_chunks (s : RecState) :
    (releaseStream s).chunks = s.chunks := by
  unfold releaseStream
  split <;> rfl

/-- The `onstop` handler appends exactly one artifact, assembled from the
current chunk buffer, to the record of completion-callback invocations. -/
lemma step_onstop_completed (s : RecState) :
    (step s .onstopEvt).completed
      = s.completed ++ [⟨s.chunks.flatten, "audio/mp4"⟩] := by
  show (releaseStream _).completed = _
  rw [releaseStream_completed]

/-- An effective `stop()` (guard satisfied) neither touches the chunk
buffer nor the completion record. -/
lemma stop_effective (u : RecState) (hg : (u.mr.isSome && u.isRecording) = true) :
    (step u .stopEvt).completed = u.completed
    ∧ (step u .stopEvt).chunks = u.chunks := by
  rw [show step u .stopEvt
        = releaseStream
            { u with mr := some .inactive, isRecording := false,
                     isPaused := false, timerOn := false, recordingTime := 0 } by
      simp [step, hg]]
  exact ⟨releaseStream_completed _, releaseStream_chunks _⟩

/-- From any state where the `stop()` guard holds, the pair
`stop(); onstop-event` delivers exactly one artifact: the concatenation of
the current chunk buffer. -/
lemma cycle_completed (u : RecState)
    (hg : (u.mr.isSome && u.isRecording) = true) :
    (run u [Event.stopEvt, Event.onstopEvt]).completed
      = u.completed ++ [⟨u.chunks.flatten, "audio/mp4"⟩] := by
  rw [show run u [Event.stopEvt, Event.onstopEvt]
        = step (step u .stopEvt) .onstopEvt from rfl]
  rw [step_onstop_completed, (stop_effective u hg).1, (stop_effective u hg).2]

/-- C8: a `start()` from any prior state (in particular after a completed,
Stopped session) resets `recordingTime` to 0 and empties the chunk
buffer, and the artifact delivered at the end of the new cycle is built
from exactly the new session's fragments in arrival order — no chunk of
any previous session appears (the result does not depend on the prior
buffer `s.chunks`; dropped zero-length fragments contribute no bytes). -/
theorem c8_fresh_session_no_carryover (s : RecState) (cs : List Chunk) :
    (step s .startOk).recordingTime = 0
    ∧ (step s .startOk).chunks = []
    ∧ (run s ([Event.startOk] ++ cs.map Event.dataAvailable
          ++ [Event.stopEvt, Event.onstopEvt])).completed
        = s.completed ++ [⟨cs.flatten, "audio/mp4"⟩] := by
  refine ⟨rfl, rfl, ?_⟩
  have h1 : run s ([Event.startOk] ++ cs.map Event.dataAvailable
        ++ [Event.stopEvt, Event.onstopEvt])
      = run (run (step s .startOk) (cs.map Event.dataAvailable))
          [Event.stopEvt, Event.onstopEvt] := by
    rw [run_append, run_append]
    rfl
  rw [h1, run_dataAvailable, cycle_completed]
  · simp [step, flatten_filter_pos]
  · rfl

/-- C9 counterexample: an entry of `calculateBarData` whose bucket is cut
off by the end of the array is NOT the arithmetic mean of that bucket.
With `frequencyData = [0,0,0,3,3]`, `width = 9`, `barWidth = 4`,
`gap = 2` we get `units = 3/2` and `step = 3`; the loop runs twice and
its second window `[3, 3]` (indices 3, 4; index 5 is out of range) is
divided by `step = 3`, giving entry `2`, while the arithmetic mean of
that bucket is `3`. -/
theorem c9_truncated_bucket_not_mean :
    calculateBarData [0, 0, 0, 3, 3] 9 4 2 = [0, 2]
    ∧ barStep 5 9 4 2 = 3
    ∧ (([0, 0, 0, 3, 3] : List ℚ).drop (1 * 3)).take 3 = [3, 3]
    ∧ ([3, 3] : List ℚ).sum / ((([3, 3] : List ℚ).length : ℚ)) = 3
    ∧ (2 : ℚ) ≠ 3 := by
  have h : (⌈(3/2 : ℚ)⌉₊) = 2 := by
    rw [Nat.ceil_eq_iff (by norm_num)]
    constructor <;> norm_num
  have h3 : Int.toNat 3 = 3 := rfl
  refine ⟨?_, ?_, by norm_num, by norm_num, by norm_num⟩
  · norm_num [calculateBarData, barUnits, barStep, h, h3, List.range_succ]
  · norm_num [barStep, h3]

/-- Every full bucket of `calculateBarData` has length exactly `step`. -/
lemma full_bucket_length (fd : List ℚ) (width barWidth gap : ℚ) (i : ℕ)
    (hfull : (i + 1) * barStep fd.length width barWidth gap ≤ fd.length) :
    ((fd.drop (i * barStep fd.length width barWidth gap)).take
        (barStep fd.length width barWidth gap)).length
      = barStep fd.length width barWidth gap := by
  rw [List.length_take, List.length_drop]
  have hexp : (i + 1) * barStep fd.length width barWidth gap
      = i * barStep fd.length width barWidth gap
        + barStep fd.length width barWidth gap := by ring
  omega

/-- C9 amended: each entry of `calculateBarData` is the sum of the
in-range part of its `step`-sized window divided by `step`; hence every
entry whose window lies entirely inside the array equals the arithmetic
mean of its bucket (sum divided by the bucket's actual length).  Only a
final window cut off by the end of the array deviates — it is divided by
`step` rather than by its element count, as `c9_truncated_bucket_not_mean`
exhibits. -/
theorem c9_full_bucket_mean (fd : List ℚ) (width barWidth gap : ℚ) (i : ℕ)
    (hi : i < (calculateBarData fd width barWidth gap).length)
    (hfull : (i + 1) * barStep fd.length width barWidth gap ≤ fd.length) :
    (calculateBarData fd width barWidth gap).getD i 0
      = ((fd.drop (i * barStep fd.length width barWidth gap)).take
            (barStep fd.length width barWidth gap)).sum
        / (((fd.drop (i * barStep fd.length width barWidth gap)).take
            (barStep fd.length width barWidth gap)).length : ℚ) := by
  rw [full_bucket_length fd width barWidth gap i hfull]
  rw [List.getD_eq_getElem _ _ hi]
  unfold calculateBarData at hi ⊢
  simp only [List.getElem_map, List.getElem_range]

/-- Witness for `c9_full_bucket_mean`: with `frequencyData = [1,2,3,4]`,
`width = 12`, `barWidth = 4`, `gap = 2` (so `units = 2`, `step = 2`), the
first bar is the mean of the full bucket `[1, 2]`. -/
theorem c9_full_bucket_mean_witness :
    (calculateBarData [1, 2, 3, 4] 12 4 2).getD 0 0
      = ((([1, 2, 3, 4] : List ℚ).drop (0 * barStep 4 12 4 2)).take
            (barStep 4 12 4 2)).sum
        / (((([1, 2, 3, 4] : List ℚ).drop (0 * barStep 4 12 4 2)).take
            (barStep 4 12 4 2)).length : ℚ) :=
  c9_full_bucket_mean [1, 2, 3, 4] 12 4 2 0
    (by norm_num [calculateBarData, barUnits, barStep])
    (by norm_num [barStep])

/-- C10: `getBlob` (in both variants) returns null exactly when the chunk
buffer is empty, and otherwise returns the blob assembled from all
collected chunks in order.  It is embedded as a total pure function of
the state — the source only reads `chunksRef` and constructs a fresh
`Blob`, so it cannot throw and has no effect on the session state. -/
theorem c10_getBlob_iff (s : RecState) (w : WebState) :
    (getBlob s = none ↔ s.chunks = [])
    ∧ (s.chunks ≠ [] → getBlob s = some ⟨s.chunks.flatten, "audio/mp4"⟩)
    ∧ (webGetBlob w = none ↔ w.chunks = [])
    ∧ (w.chunks ≠ [] → webGetBlob w = some ⟨w.chunks.flatten, "audio/webm"⟩) := by
  refine ⟨⟨?_, ?_⟩, ?_, ⟨?_, ?_⟩, ?_⟩
  · intro h
    by_cases hc : s.chunks.length = 0
    · exact List.length_eq_zero.mp hc
    · rw [getBlob, if_neg hc] at h
      exact absurd h (by simp)
  · intro h
    rw [getBlob, if_pos (by simp [h])]
  · intro h
    rw [getBlob, if_neg (by simp [List.length_eq_zero, h])]
  · intro h
    by_cases hc : w.chunks.length = 0
    · exact List.length_eq_zero.mp hc
    · rw [webGetBlob, if_neg hc] at h
      exact absurd h (by simp)
  · intro h
    rw [webGetBlob, if_pos (by simp [h])]
  · intro h
    rw [webGetBlob, if_neg (by simp [List.length_eq_zero, h])]

/-- Witness for `c10_getBlob_iff`: with one collected chunk `[7]`,
`getBlob` returns the assembled one-chunk blob. -/
theorem c10_getBlob_witness :
    getBlob { initState with chunks := [[7]] } = some ⟨[7], "audio/mp4"⟩ :=
  (c10_getBlob_iff { initState with chunks := [[7]] } webInit).2.1 (by decide)

end Voice
